import Mathlib

/-!
Shallow embedding of the azure-openai-proxy routing core
(load balancer, dispatcher retry loop, request transformer),
translated from the Go sources:

  - loadbalancer/balancer.go : BackendStatus, ModelBalancer, Init, GetNext,
    GetAllBackends, MarkUnhealthy, MarkHealthy, StartHealthCheck sweep
  - handlers/proxy.go        : transformRequestBody, proxyWithModel retry loop

Machine integers: the rotation cursor is a Go uint64, modelled as a Nat with
explicit `% 2 ^ 64` at each increment; `failCount` is an int32 that is only
ever incremented or reset to zero in the source and no property depends on
its wrap, so it is modelled as a Nat.  Wall-clock time is modelled as a Nat
(units abstracted; only order and differences matter to the sweep).
-/

namespace AzureProxy

/-! ## Request transformer (handlers/proxy.go, transformRequestBody)

Go parses the body into `map[string]interface{}`; values are never inspected,
so the map is modelled as an association list from field name to an opaque
value type `V`.  `jSet` models Go map assignment (replace the entry if the key
exists, otherwise add it), `jDelete` models `delete`, `jGet` models lookup. -/

def jGet {V : Type} : List (String × V) → String → Option V
  | [], _ => none
  | e :: m, k => if e.1 = k then some e.2 else jGet m k

def jHas {V : Type} (m : List (String × V)) (k : String) : Bool :=
  (jGet m k).isSome

def jSet {V : Type} : List (String × V) → String → V → List (String × V)
  | [], k, v => [(k, v)]
  | e :: m, k, v => if e.1 = k then (k, v) :: m else e :: jSet m k v

def jDelete {V : Type} : List (String × V) → String → List (String × V)
  | [], _ => []
  | e :: m, k => if e.1 = k then jDelete m k else e :: jDelete m k

/-- List `unsupportedParams` from handlers/proxy.go: parameters Azure OpenAI does
not support, stripped by the transformer. -/
def unsupportedParams : List String :=
  ["chat_template_kwargs", "enable_thinking"]

/-- The `for _, param := range unsupportedParams` removal loop of
`transformRequestBody`, threading the `modified` flag. -/
def removeUnsupported {V : Type} :
    List String → List (String × V) × Bool → List (String × V) × Bool
  | [], acc => acc
  | p :: ps, (m, modified) =>
    if jHas m p then removeUnsupported ps (jDelete m p, true)
    else removeUnsupported ps (m, modified)

/-- The body of `transformRequestBody` on a successfully parsed payload:
rename `max_tokens` to `max_completion_tokens` when the latter is absent,
then strip the unsupported parameters; returns the new map and the
`modified` flag. -/
def transformData {V : Type} (m : List (String × V)) :
    List (String × V) × Bool :=
  let step1 :=
    match jGet m "max_tokens" with
    | some v =>
      if jHas m "max_completion_tokens" then (m, false)
      else (jDelete (jSet m "max_completion_tokens" v) "max_tokens", true)
    | none => (m, false)
  removeUnsupported unsupportedParams step1

/-- A request body: either bytes that fail to parse as a JSON object
(returned untouched by the transformer) or a parsed object. -/
inductive Body (V : Type) where
  | invalid (s : String)
  | parsed (fields : List (String × V))
deriving DecidableEq

/-- Function `transformRequestBody`: on parse failure the original body is returned;
otherwise the transformation runs and, when nothing was modified, the
original payload is returned unchanged (the Go code returns the original
byte slice rather than re-marshalling). -/
def transformRequestBody {V : Type} : Body V → Body V
  | .invalid s => .invalid s
  | .parsed m =>
    let r := transformData m
    if r.2 then .parsed r.1 else .parsed m

/-! ## Load balancer data model (loadbalancer/balancer.go)

`BackendStatus` wraps one immutable backend descriptor with mutable health
state; `ModelBalancer` is the per-model pool plus the uint64 rotation cursor.
Go's `[]*BackendStatus` shares the status records by pointer; the dispatcher
here identifies a status by its index into the owning pool, which plays the
role of the pointer. -/

structure Backend where
  endpoint : String
  apiKey : String
  deployment : String
  apiVersion : String
deriving DecidableEq

structure BackendStatus where
  backend : Backend
  healthy : Bool
  lastChecked : Nat
  failCount : Nat
deriving DecidableEq

structure ModelBalancer where
  backends : List BackendStatus
  current : Nat
deriving DecidableEq

/-- The uint64 modulus for the rotation cursor. -/
def U64 : Nat := 2 ^ 64

/-- A fresh `BackendStatus` as built by `Init`: healthy, zero fail count. -/
def initBS (b : Backend) : BackendStatus :=
  { backend := b, healthy := true, lastChecked := 0, failCount := 0 }

/-- Function `Init`: builds one `ModelBalancer` per configured model, wrapping every
configured backend in a fresh healthy status.  The Go function has no error
return: it registers every model, including one whose backend list is empty. -/
def Init (models : List (String × List Backend)) : List (String × ModelBalancer) :=
  models.map (fun mc => (mc.1, { backends := mc.2.map initBS, current := 0 }))

/-- Association-list lookup, modelling Go map indexing `lb.balancers[model]`. -/
def alookup {A : Type} : List (String × A) → String → Option A
  | [], _ => none
  | e :: xs, k => if e.1 = k then some e.2 else alookup xs k

/-- Health read `backend.Healthy` for the backend at index `idx` of the pool
(as in `GetNext`, where `idx` is always in range). -/
def healthyAtIdx (backends : List BackendStatus) (idx : Nat) : Bool :=
  ((backends.get? idx).map (fun b => b.healthy)).getD false

/-- The probe loop of `GetNext`: each iteration does
`idx := atomic.AddUint64(&balancer.current, 1) % uint64(n)` and returns the
probed index when that backend is healthy; the cursor value is threaded
explicitly. -/
def getNextLoop (backends : List BackendStatus) : Nat → Nat → Nat × Option Nat
  | cur, 0 => (cur, none)
  | cur, fuel + 1 =>
    let cur2 := (cur + 1) % U64
    let idx := cur2 % backends.length
    if healthyAtIdx backends idx then (cur2, some idx)
    else getNextLoop backends cur2 fuel

/-- Function `GetNext` at the `ModelBalancer` level: probes one full rotation and
returns the index of the selected backend; when no probe finds a healthy
backend it returns index 0 (`balancer.backends[0]`).  Returns `none` only
for an empty pool (the Go function returns nil then). -/
def GetNext (mb : ModelBalancer) : ModelBalancer × Option Nat :=
  if mb.backends.length = 0 then (mb, none)
  else
    match getNextLoop mb.backends mb.current mb.backends.length with
    | (cur2, some idx) => ({ mb with current := cur2 }, some idx)
    | (cur2, none) => ({ mb with current := cur2 }, some 0)

/-- Function `GetAllBackends` at the `ModelBalancer` level: reads the cursor without
advancing it (`atomic.LoadUint64`) and returns the indices of the whole pool
starting from `current % n`, wrapping around; the balancer is returned
unchanged.  An empty pool yields the empty sequence (Go returns nil). -/
def GetAllBackends (mb : ModelBalancer) : ModelBalancer × List Nat :=
  let n := mb.backends.length
  if n = 0 then (mb, [])
  else (mb, (List.range n).map (fun i => (mb.current % n + i) % n))

/-- In-place update of one list element, modelling mutation through the
shared `*BackendStatus` pointer. -/
def modifyAt {A : Type} (f : A → A) : List A → Nat → List A
  | [], _ => []
  | x :: xs, 0 => f x :: xs
  | x :: xs, i + 1 => x :: modifyAt f xs i

/-- Field updates of `MarkUnhealthy`: `healthy = false`, `lastChecked = now`,
`failCount++`. -/
def markUnhealthyBS (now : Nat) (bs : BackendStatus) : BackendStatus :=
  { bs with healthy := false, lastChecked := now, failCount := bs.failCount + 1 }

/-- Field updates of `MarkHealthy`: `healthy = true`, `lastChecked = now`,
`failCount = 0`. -/
def markHealthyBS (now : Nat) (bs : BackendStatus) : BackendStatus :=
  { bs with healthy := true, lastChecked := now, failCount := 0 }

/-- Operation `MarkUnhealthy` on the pool, for the backend at index `idx`. -/
def MarkUnhealthy (pool : List BackendStatus) (idx now : Nat) :
    List BackendStatus :=
  modifyAt (markUnhealthyBS now) pool idx

/-- Operation `MarkHealthy` on the pool, for the backend at index `idx`. -/
def MarkHealthy (pool : List BackendStatus) (idx now : Nat) :
    List BackendStatus :=
  modifyAt (markHealthyBS now) pool idx

/-- Constant `defaultRecoveryTimeout = 30 * time.Second` (time modelled in seconds). -/
def defaultRecoveryTimeout : Nat := 30

/-- One backend's treatment by the recovery sweep of `StartHealthCheck`:
`if !backend.Healthy && time.Since(backend.LastChecked) > defaultRecoveryTimeout
 { backend.Healthy = true }`. -/
def sweepBS (now : Nat) (bs : BackendStatus) : BackendStatus :=
  if !bs.healthy && decide (defaultRecoveryTimeout < now - bs.lastChecked) then
    { bs with healthy := true }
  else bs

/-- One tick of the recovery sweep over one model's pool. -/
def healthCheckSweep (now : Nat) (mb : ModelBalancer) : ModelBalancer :=
  { mb with backends := mb.backends.map (sweepBS now) }

/-- All-unhealthy two-backend pool with the cursor at 1, used to refute C1 as
stated. -/
def mbC1 : ModelBalancer :=
  ⟨[⟨⟨"e1", "k1", "d1", "v1"⟩, false, 0, 0⟩,
    ⟨⟨"e2", "k2", "d2", "v2"⟩, false, 0, 0⟩], 1⟩

/-- Single healthy backend pool for the C1 witness. -/
def mbC1w : ModelBalancer :=
  ⟨[⟨⟨"e", "k", "d", "v"⟩, true, 0, 0⟩], 0⟩

/-! ## Dispatcher retry loop (handlers/proxy.go, proxyWithModel)

The environment of one inbound request is modelled by two functions indexed
by the loop counter `i`:

  * `cancelledAt i` — whether the `select`/`ctx.Done()` check at the top of
    iteration `i` observes the caller's cancellation;
  * `outcome i` — what the attempt itself would produce:
    `buildErr` (http.NewRequestWithContext fails: no backend contacted),
    `doErr` (h.client.Do returns a non-nil error; its `dueToCancel` flag
    records whether that error was caused by the caller's context being
    cancelled while the call was in flight, per net/http semantics — the Go
    code never inspects the error's cause, which the loop below mirrors by
    ignoring the flag), or `resp status` (a response with that status code).

Per-attempt timestamps passed to the mark operations are abstracted to one
`now` value; no claim depends on them. -/

inductive AttemptOutcome where
  | buildErr (msg : String)
  | doErr (dueToCancel : Bool) (msg : String)
  | resp (status : Nat)
deriving DecidableEq

/-- Whether an outcome makes the loop `continue` (error or status >= 500). -/
def isFail : AttemptOutcome → Bool
  | .buildErr _ => true
  | .doErr _ _ => true
  | .resp s => decide (500 ≤ s)

/-- The error description recorded in `lastErr` for a failing outcome. -/
def errDescr : AttemptOutcome → String
  | .buildErr msg => msg
  | .doErr _ msg => msg
  | .resp s => "backend returned status " ++ toString s

inductive DispatchResult where
  | noBackends
  | cancelled
  | relayed (backendIdx status : Nat)
  | allFailed (detail : Option String)
deriving DecidableEq

/-- The `for i := 0; i < maxAttempts; i++` loop of `proxyWithModel`,
recursing on the remaining attempt budget.  `backends` is the failover
sequence of pool indices, `lastErr` the last recorded error, `pool` the
shared health state.  The third result component is a ghost trace recording,
for each loop iteration that ran an attempt, the backend index used and the
outcome observed. -/
def dispatchLoop (cancelledAt : Nat → Bool) (outcome : Nat → AttemptOutcome)
    (backends : List Nat) (now : Nat) :
    Nat → Nat → Option String → List BackendStatus →
      DispatchResult × List BackendStatus × List (Nat × AttemptOutcome)
  | 0, _, lastErr, pool => (.allFailed lastErr, pool, [])
  | r + 1, i, lastErr, pool =>
    if cancelledAt i then (.cancelled, pool, [])
    else
      let bIdx := (backends.get? (i % backends.length)).getD 0
      match outcome i with
      | .buildErr msg =>
        let rest := dispatchLoop cancelledAt outcome backends now
          r (i + 1) (some msg) pool
        (rest.1, rest.2.1, (bIdx, .buildErr msg) :: rest.2.2)
      | .doErr c msg =>
        let rest := dispatchLoop cancelledAt outcome backends now
          r (i + 1) (some msg) (MarkUnhealthy pool bIdx now)
        (rest.1, rest.2.1, (bIdx, .doErr c msg) :: rest.2.2)
      | .resp s =>
        if 500 ≤ s then
          let rest := dispatchLoop cancelledAt outcome backends now
            r (i + 1) (some ("backend returned status " ++ toString s))
            (MarkUnhealthy pool bIdx now)
          (rest.1, rest.2.1, (bIdx, .resp s) :: rest.2.2)
        else
          (.relayed bIdx s, MarkHealthy pool bIdx now, [(bIdx, .resp s)])

/-- Function `proxyWithModel`: obtains the failover sequence, answers 503
`no backends available` on an empty sequence, computes the attempt bound
`min(cfg.Retry.MaxAttempts, len(backends))`, and runs the retry loop. -/
def proxyWithModel (cancelledAt : Nat → Bool) (outcome : Nat → AttemptOutcome)
    (maxAttemptsCfg : Nat) (mb : ModelBalancer) (now : Nat) :
    DispatchResult × List BackendStatus × List (Nat × AttemptOutcome) :=
  let backends := (GetAllBackends mb).2
  if backends.length = 0 then (.noBackends, mb.backends, [])
  else
    let maxAttempts :=
      if maxAttemptsCfg > backends.length then backends.length else maxAttemptsCfg
    dispatchLoop cancelledAt outcome backends now maxAttempts 0 none mb.backends

/-- Two-backend all-failing pool for the C6 witness. -/
def mbC6 : ModelBalancer :=
  ⟨[⟨⟨"a", "x", "da", "va"⟩, true, 0, 0⟩,
    ⟨⟨"b", "y", "db", "vb"⟩, true, 0, 0⟩], 0⟩

/-- Two healthy backends for the C4 witness. -/
def mbC4 : ModelBalancer :=
  ⟨[⟨⟨"a", "x", "da", "va"⟩, true, 0, 0⟩,
    ⟨⟨"b", "y", "db", "vb"⟩, true, 0, 0⟩], 0⟩

/-- A healthy single-backend pool whose only attempt fails because the
caller's context is cancelled while the outbound call is in flight. -/
def bsC3 : BackendStatus := ⟨⟨"e", "k", "d", "v"⟩, true, 0, 0⟩

/-! ## Theorems -/

/-! ### Transformer lemmas -/

theorem jGet_jDelete_self {V : Type} (m : List (String × V)) (k : String) :
    jGet (jDelete m k) k = none := by
  induction m with
  | nil => rfl
  | cons e m ih =>
    by_cases h : e.1 = k
    · simpa [jDelete, h] using ih
    · simpa [jDelete, jGet, h] using ih

theorem jGet_jDelete_ne {V : Type} (m : List (String × V)) (k k' : String)
    (h : k' ≠ k) : jGet (jDelete m k) k' = jGet m k' := by
  induction m with
  | nil => rfl
  | cons e m ih =>
    by_cases he : e.1 = k
    · have hkk : ¬ k = k' := fun hq => h hq.symm
      simpa [jDelete, jGet, he, hkk] using ih
    · by_cases he' : e.1 = k'
      · simp [jDelete, jGet, he, he', h]
      · simpa [jDelete, jGet, he, he'] using ih

theorem jGet_jSet_self {V : Type} (m : List (String × V)) (k : String) (v : V) :
    jGet (jSet m k v) k = some v := by
  induction m with
  | nil => simp [jSet, jGet]
  | cons e m ih =>
    by_cases h : e.1 = k
    · simp [jSet, jGet, h]
    · simpa [jSet, jGet, h] using ih

theorem jGet_jSet_ne {V : Type} (m : List (String × V)) (k k' : String) (v : V)
    (h : k' ≠ k) : jGet (jSet m k v) k' = jGet m k' := by
  induction m with
  | nil =>
    have : ¬ k = k' := fun hq => h hq.symm
    simp [jSet, jGet, this]
  | cons e m ih =>
    by_cases he : e.1 = k
    · have h2 : ¬ k = k' := fun hq => h hq.symm
      simp [jSet, jGet, he, h2]
    · by_cases he' : e.1 = k'
      · simp [jSet, jGet, he, he', h]
      · simpa [jSet, jGet, he, he'] using ih

theorem jHas_none {V : Type} (m : List (String × V)) (k : String)
    (h : jHas m k = false) : jGet m k = none := by
  unfold jHas at h
  exact Option.not_isSome_iff_eq_none.mp (by simp [h])

theorem jHas_jDelete_ne {V : Type} (m : List (String × V)) (k k' : String)
    (h : k' ≠ k) : jHas (jDelete m k) k' = jHas m k' := by
  unfold jHas
  rw [jGet_jDelete_ne m k k' h]

theorem removeUnsupported_char {V : Type} (m1 : List (String × V)) (b1 : Bool) :
    jGet (removeUnsupported unsupportedParams (m1, b1)).1 "chat_template_kwargs" = none ∧
    jGet (removeUnsupported unsupportedParams (m1, b1)).1 "enable_thinking" = none ∧
    (∀ k, k ≠ "chat_template_kwargs" → k ≠ "enable_thinking" →
      jGet (removeUnsupported unsupportedParams (m1, b1)).1 k = jGet m1 k) ∧
    (removeUnsupported unsupportedParams (m1, b1)).2
      = (b1 || jHas m1 "chat_template_kwargs" || jHas m1 "enable_thinking") := by
  have hne : ("enable_thinking" : String) ≠ "chat_template_kwargs" := by decide
  cases hc : jHas m1 "chat_template_kwargs" with
  | true =>
    have hdel : jHas (jDelete m1 "chat_template_kwargs") "enable_thinking"
        = jHas m1 "enable_thinking" := jHas_jDelete_ne m1 _ _ hne
    cases he : jHas m1 "enable_thinking" with
    | true =>
      have hr : removeUnsupported unsupportedParams (m1, b1)
          = (jDelete (jDelete m1 "chat_template_kwargs") "enable_thinking", true) := by
        simp [removeUnsupported, unsupportedParams, hc, hdel, he]
      rw [hr]
      refine ⟨?_, jGet_jDelete_self _ _, ?_, by simp [hc, he]⟩
      · rw [jGet_jDelete_ne _ _ _ hne.symm, jGet_jDelete_self]
      · intro k h1 h2
        rw [jGet_jDelete_ne _ _ _ h2, jGet_jDelete_ne _ _ _ h1]
    | false =>
      have hr : removeUnsupported unsupportedParams (m1, b1)
          = (jDelete m1 "chat_template_kwargs", true) := by
        simp [removeUnsupported, unsupportedParams, hc, hdel, he]
      rw [hr]
      refine ⟨jGet_jDelete_self _ _, ?_, ?_, by simp [hc, he]⟩
      · rw [jGet_jDelete_ne _ _ _ hne]
        exact jHas_none m1 _ he
      · intro k h1 h2
        rw [jGet_jDelete_ne _ _ _ h1]
  | false =>
    cases he : jHas m1 "enable_thinking" with
    | true =>
      have hr : removeUnsupported unsupportedParams (m1, b1)
          = (jDelete m1 "enable_thinking", true) := by
        simp [removeUnsupported, unsupportedParams, hc, he]
      rw [hr]
      refine ⟨?_, jGet_jDelete_self _ _, ?_, by simp [hc, he]⟩
      · rw [jGet_jDelete_ne _ _ _ hne.symm]
        exact jHas_none m1 _ hc
      · intro k h1 h2
        rw [jGet_jDelete_ne _ _ _ h2]
    | false =>
      have hr : removeUnsupported unsupportedParams (m1, b1) = (m1, b1) := by
        simp [removeUnsupported, unsupportedParams, hc, he]
      rw [hr]
      exact ⟨jHas_none m1 _ hc, jHas_none m1 _ he, fun k _ _ => rfl,
        by simp [hc, he]⟩

theorem transformData_char {V : Type} (m : List (String × V)) :
    jGet (transformData m).1 "chat_template_kwargs" = none ∧
    jGet (transformData m).1 "enable_thinking" = none ∧
    (jGet (transformData m).1 "max_tokens"
      = if jHas m "max_tokens" && !(jHas m "max_completion_tokens") then none
        else jGet m "max_tokens") ∧
    (jGet (transformData m).1 "max_completion_tokens"
      = if jHas m "max_tokens" && !(jHas m "max_completion_tokens")
        then jGet m "max_tokens" else jGet m "max_completion_tokens") ∧
    (∀ k, k ≠ "chat_template_kwargs" → k ≠ "enable_thinking" →
      k ≠ "max_tokens" → k ≠ "max_completion_tokens" →
      jGet (transformData m).1 k = jGet m k) ∧
    ((transformData m).2
      = ((jHas m "max_tokens" && !(jHas m "max_completion_tokens"))
          || jHas m "chat_template_kwargs" || jHas m "enable_thinking")) := by
  have hmt_ctk : ("max_tokens" : String) ≠ "chat_template_kwargs" := by decide
  have hmt_et : ("max_tokens" : String) ≠ "enable_thinking" := by decide
  have hmc_ctk : ("max_completion_tokens" : String) ≠ "chat_template_kwargs" := by decide
  have hmc_et : ("max_completion_tokens" : String) ≠ "enable_thinking" := by decide
  have hmc_mt : ("max_completion_tokens" : String) ≠ "max_tokens" := by decide
  cases hm : jGet m "max_tokens" with
  | none =>
    have hhas : jHas m "max_tokens" = false := by simp [jHas, hm]
    have htd : transformData m = removeUnsupported unsupportedParams (m, false) := by
      simp [transformData, hm]
    have hch := removeUnsupported_char m false
    rw [htd]
    refine ⟨hch.1, hch.2.1, ?_, ?_, ?_, ?_⟩
    · rw [hch.2.2.1 _ hmt_ctk hmt_et, hhas]
      simp [hm]
    · rw [hch.2.2.1 _ hmc_ctk hmc_et, hhas]
      simp
    · intro k h1 h2 _ _
      exact hch.2.2.1 k h1 h2
    · rw [hch.2.2.2, hhas]
      simp
  | some v =>
    have hhas : jHas m "max_tokens" = true := by simp [jHas, hm]
    cases hn : jHas m "max_completion_tokens" with
    | true =>
      have htd : transformData m = removeUnsupported unsupportedParams (m, false) := by
        simp [transformData, hm, hn]
      have hch := removeUnsupported_char m false
      rw [htd]
      refine ⟨hch.1, hch.2.1, ?_, ?_, ?_, ?_⟩
      · rw [hch.2.2.1 _ hmt_ctk hmt_et]
        simp [hm]
      · rw [hch.2.2.1 _ hmc_ctk hmc_et]
        simp
      · intro k h1 h2 _ _
        exact hch.2.2.1 k h1 h2
      · rw [hch.2.2.2]
        simp
    | false =>
      have htd : transformData m
          = removeUnsupported unsupportedParams
              (jDelete (jSet m "max_completion_tokens" v) "max_tokens", true) := by
        simp [transformData, hm, hn]
      have m1get_mt :
          jGet (jDelete (jSet m "max_completion_tokens" v) "max_tokens") "max_tokens"
            = none := jGet_jDelete_self _ _
      have m1get_mc :
          jGet (jDelete (jSet m "max_completion_tokens" v) "max_tokens")
              "max_completion_tokens" = some v := by
        rw [jGet_jDelete_ne _ _ _ hmc_mt, jGet_jSet_self]
      have m1get_other : ∀ k, k ≠ "max_tokens" → k ≠ "max_completion_tokens" →
          jGet (jDelete (jSet m "max_completion_tokens" v) "max_tokens") k
            = jGet m k := by
        intro k h1 h2
        rw [jGet_jDelete_ne _ _ _ h1, jGet_jSet_ne _ _ _ _ h2]
      have hch := removeUnsupported_char
        (jDelete (jSet m "max_completion_tokens" v) "max_tokens") true
      rw [htd]
      refine ⟨hch.1, hch.2.1, ?_, ?_, ?_, ?_⟩
      · rw [hch.2.2.1 _ hmt_ctk hmt_et, m1get_mt]
        simp [hhas]
      · rw [hch.2.2.1 _ hmc_ctk hmc_et, m1get_mc]
        simp [hhas]
      · intro k h1 h2 h3 h4
        rw [hch.2.2.1 k h1 h2, m1get_other k h3 h4]
      · rw [hch.2.2.2]
        have e1 : jHas (jDelete (jSet m "max_completion_tokens" v) "max_tokens")
            "chat_template_kwargs" = jHas m "chat_template_kwargs" := by
          unfold jHas
          rw [m1get_other _ hmt_ctk.symm hmc_ctk.symm]
        have e2 : jHas (jDelete (jSet m "max_completion_tokens" v) "max_tokens")
            "enable_thinking" = jHas m "enable_thinking" := by
          unfold jHas
          rw [m1get_other _ hmt_et.symm hmc_et.symm]
        simp [e1, e2, hhas]

theorem transformData_not_modified {V : Type} (m : List (String × V))
    (h : (transformData m).2 = false) : transformData m = (m, false) := by
  have hflag := (transformData_char m).2.2.2.2.2
  rw [h] at hflag
  have h3 : jHas m "chat_template_kwargs" = false := by
    rcases Bool.or_eq_false_iff.mp hflag.symm with ⟨hl, _⟩
    exact (Bool.or_eq_false_iff.mp hl).2
  have h4 : jHas m "enable_thinking" = false := by
    exact (Bool.or_eq_false_iff.mp hflag.symm).2
  have hcond : (jHas m "max_tokens" && !(jHas m "max_completion_tokens")) = false := by
    rcases Bool.or_eq_false_iff.mp hflag.symm with ⟨hl, _⟩
    exact (Bool.or_eq_false_iff.mp hl).1
  have hr : removeUnsupported unsupportedParams (m, false) = (m, false) := by
    simp [removeUnsupported, unsupportedParams, h3, h4]
  cases hm : jGet m "max_tokens" with
  | none =>
    have htd : transformData m = removeUnsupported unsupportedParams (m, false) := by
      simp [transformData, hm]
    rw [htd, hr]
  | some v =>
    have hhas : jHas m "max_tokens" = true := by simp [jHas, hm]
    rw [hhas] at hcond
    have hmct : jHas m "max_completion_tokens" = true := by
      cases hq : jHas m "max_completion_tokens" with
      | true => rfl
      | false =>
        rw [hq] at hcond
        simp at hcond
    have htd : transformData m = removeUnsupported unsupportedParams (m, false) := by
      simp [transformData, hm, hmct]
    rw [htd, hr]

theorem transformData_fix {V : Type} (m : List (String × V)) :
    transformData (transformData m).1 = ((transformData m).1, false) := by
  apply transformData_not_modified
  have hc1 := (transformData_char m).1
  have hc2 := (transformData_char m).2.1
  have hmt := (transformData_char m).2.2.1
  have hmc := (transformData_char m).2.2.2.1
  have hflag := (transformData_char (transformData m).1).2.2.2.2.2
  rw [hflag]
  have hhc : jHas (transformData m).1 "chat_template_kwargs" = false := by
    simp [jHas, hc1]
  have hhe : jHas (transformData m).1 "enable_thinking" = false := by
    simp [jHas, hc2]
  rw [hhc, hhe]
  cases hcond : (jHas m "max_tokens" && !(jHas m "max_completion_tokens")) with
  | true =>
    rw [hcond] at hmt
    have : jHas (transformData m).1 "max_tokens" = false := by
      simp [jHas, hmt]
    simp [this]
  | false =>
    rw [hcond] at hmt hmc
    have e1 : jHas (transformData m).1 "max_tokens" = jHas m "max_tokens" := by
      unfold jHas
      rw [hmt]
      simp
    have e2 : jHas (transformData m).1 "max_completion_tokens"
        = jHas m "max_completion_tokens" := by
      unfold jHas
      rw [hmc]
      simp
    rw [e1, e2, hcond]
    simp

/-- C8: for every parseable JSON payload, `transformRequestBody` renames
`max_tokens` to `max_completion_tokens` (preserving the value) exactly when
`max_tokens` is present and `max_completion_tokens` is absent, and the
denylisted fields `chat_template_kwargs` and `enable_thinking` are absent
from the output. -/
theorem C8_transformer_fields {V : Type} (m : List (String × V)) :
    jGet (transformData m).1 "chat_template_kwargs" = none ∧
    jGet (transformData m).1 "enable_thinking" = none ∧
    (if jHas m "max_tokens" && !(jHas m "max_completion_tokens") then
      jGet (transformData m).1 "max_completion_tokens" = jGet m "max_tokens" ∧
      jGet (transformData m).1 "max_tokens" = none
    else
      jGet (transformData m).1 "max_tokens" = jGet m "max_tokens" ∧
      jGet (transformData m).1 "max_completion_tokens"
        = jGet m "max_completion_tokens") := by
  have hmt := (transformData_char m).2.2.1
  have hmc := (transformData_char m).2.2.2.1
  refine ⟨(transformData_char m).1, (transformData_char m).2.1, ?_⟩
  cases hcond : (jHas m "max_tokens" && !(jHas m "max_completion_tokens")) with
  | true =>
    rw [hcond] at hmt hmc
    simp only [if_true, reduceIte]
    exact ⟨by rw [hmc]; simp, by rw [hmt]; simp⟩
  | false =>
    rw [hcond] at hmt hmc
    simp only [Bool.false_eq_true, if_false, reduceIte]
    exact ⟨by rw [hmt]; simp, by rw [hmc]; simp⟩

/-- C9: the transformer is idempotent (applying it to its own output yields
that output unchanged), and a payload that needs no rewrite (`modified`
stays false) is returned unchanged, exactly as the original. -/
theorem C9_transformer_idempotent {V : Type} (b : Body V)
    (m : List (String × V)) :
    transformRequestBody (transformRequestBody b) = transformRequestBody b ∧
    ((transformData m).2 = false →
      transformRequestBody (Body.parsed m) = Body.parsed m) := by
  constructor
  · cases b with
    | invalid s => rfl
    | parsed m0 =>
      cases hr : (transformData m0).2 with
      | false =>
        have e : transformRequestBody (Body.parsed m0) = Body.parsed m0 := by
          simp [transformRequestBody, hr]
        rw [e]
        exact e
      | true =>
        have e1 : transformRequestBody (Body.parsed m0)
            = Body.parsed (transformData m0).1 := by
          simp [transformRequestBody, hr]
        rw [e1]
        simp [transformRequestBody, transformData_fix m0]
  · intro h
    simp [transformRequestBody, h]

/-- Witness for C9 at a concrete payload needing no rewrite. -/
theorem C9_witness :
    (transformRequestBody (transformRequestBody (Body.parsed [("model", (1 : Nat))]))
      = transformRequestBody (Body.parsed [("model", (1 : Nat))])) ∧
    transformRequestBody (Body.parsed [("model", (1 : Nat))])
      = Body.parsed [("model", (1 : Nat))] :=
  And.intro
    (C9_transformer_idempotent (Body.parsed [("model", (1 : Nat))])
      [("model", (1 : Nat))]).1
    ((C9_transformer_idempotent (Body.parsed [("model", (1 : Nat))])
      [("model", (1 : Nat))]).2 (by decide))

/-- C10: a payload containing both `max_tokens` and `max_completion_tokens`
and no denylisted field is returned unchanged: the legacy field is kept
alongside the replacement field, not deleted. -/
theorem C10_legacy_kept {V : Type} (m : List (String × V))
    (h1 : jHas m "max_tokens" = true)
    (h2 : jHas m "max_completion_tokens" = true)
    (h3 : jHas m "chat_template_kwargs" = false)
    (h4 : jHas m "enable_thinking" = false) :
    transformData m = (m, false) ∧
    transformRequestBody (Body.parsed m) = Body.parsed m := by
  have hflag : (transformData m).2 = false := by
    rw [(transformData_char m).2.2.2.2.2, h1, h2, h3, h4]
    simp
  exact ⟨transformData_not_modified m hflag, by simp [transformRequestBody, hflag]⟩

/-- Witness for C10 at a concrete payload holding both token-limit fields. -/
theorem C10_witness :
    transformData [("max_tokens", (5 : Nat)), ("max_completion_tokens", 7)]
      = ([("max_tokens", (5 : Nat)), ("max_completion_tokens", 7)], false) ∧
    transformRequestBody
        (Body.parsed [("max_tokens", (5 : Nat)), ("max_completion_tokens", 7)])
      = Body.parsed [("max_tokens", (5 : Nat)), ("max_completion_tokens", 7)] :=
  C10_legacy_kept _ (by decide) (by decide) (by decide) (by decide)

/-! ### GetNext probe-loop characterization -/

theorem getNextLoop_spec (bks : List BackendStatus) (fuel : Nat) :
    ∀ cur, cur < U64 →
    (∃ k, 1 ≤ k ∧ k ≤ fuel ∧
      healthyAtIdx bks (((cur + k) % U64) % bks.length) = true ∧
      (∀ j, 1 ≤ j → j < k →
        healthyAtIdx bks (((cur + j) % U64) % bks.length) = false) ∧
      getNextLoop bks cur fuel
        = ((cur + k) % U64, some (((cur + k) % U64) % bks.length)))
    ∨ ((∀ j, 1 ≤ j → j ≤ fuel →
        healthyAtIdx bks (((cur + j) % U64) % bks.length) = false) ∧
      getNextLoop bks cur fuel = ((cur + fuel) % U64, none)) := by
  induction fuel with
  | zero =>
    intro cur hcur
    right
    constructor
    · intro j h1 h2
      omega
    · simp [getNextLoop, Nat.mod_eq_of_lt hcur]
  | succ fuel ih =>
    intro cur hcur
    cases h : healthyAtIdx bks (((cur + 1) % U64) % bks.length) with
    | true =>
      left
      refine ⟨1, le_refl 1, by omega, h, ?_, ?_⟩
      · intro j h1 h2
        omega
      · simp [getNextLoop, h]
    | false =>
      have hU : 0 < U64 := by norm_num [U64]
      have hcur2 : (cur + 1) % U64 < U64 := Nat.mod_lt _ hU
      have hloop : getNextLoop bks cur (fuel + 1)
          = getNextLoop bks ((cur + 1) % U64) fuel := by
        simp [getNextLoop, h]
      rcases ih ((cur + 1) % U64) hcur2 with ⟨k, hk1, hk2, hh, hprev, heq⟩ | ⟨hall, heq⟩
      · left
        have hsh : ((cur + 1) % U64 + k) % U64 = (cur + (k + 1)) % U64 := by
          rw [Nat.mod_add_mod]
          congr 1
          omega
        refine ⟨k + 1, by omega, by omega, ?_, ?_, ?_⟩
        · rw [← hsh]
          exact hh
        · intro j h1 h2
          rcases Nat.eq_or_lt_of_le h1 with h1e | h1l
          · rw [← h1e]
            exact h
          · have hsh2 : ((cur + 1) % U64 + (j - 1)) % U64 = (cur + j) % U64 := by
              rw [Nat.mod_add_mod]
              congr 1
              omega
            rw [← hsh2]
            exact hprev (j - 1) (by omega) (by omega)
        · rw [hloop, heq, hsh]
      · right
        constructor
        · intro j h1 h2
          rcases Nat.eq_or_lt_of_le h1 with h1e | h1l
          · rw [← h1e]
            exact h
          · have hsh2 : ((cur + 1) % U64 + (j - 1)) % U64 = (cur + j) % U64 := by
              rw [Nat.mod_add_mod]
              congr 1
              omega
            rw [← hsh2]
            exact hall (j - 1) (by omega) (by omega)
        · have hsh : ((cur + 1) % U64 + fuel) % U64 = (cur + (fuel + 1)) % U64 := by
            rw [Nat.mod_add_mod]
            congr 1
            omega
          rw [hloop, heq, hsh]

/-- C1 (amended): `GetNext` advances the rotation cursor once per probe, not
once per call: it returns the first healthy backend among the cursor
positions `current + 1 .. current + n` (one full rotation), leaving the
cursor at the successful probe; when every backend is unhealthy it leaves
the cursor advanced by the full pool size and returns the backend at index
0 — which is not, in general, the backend at the pre-advance cursor
position. -/
theorem C1_getNext_amended (mb : ModelBalancer) (hn : 0 < mb.backends.length)
    (hc : mb.current < U64) :
    (∃ k, 1 ≤ k ∧ k ≤ mb.backends.length ∧
      healthyAtIdx mb.backends
        (((mb.current + k) % U64) % mb.backends.length) = true ∧
      (∀ j, 1 ≤ j → j < k →
        healthyAtIdx mb.backends
          (((mb.current + j) % U64) % mb.backends.length) = false) ∧
      GetNext mb = ({ mb with current := (mb.current + k) % U64 },
        some (((mb.current + k) % U64) % mb.backends.length)))
    ∨ ((∀ j, 1 ≤ j → j ≤ mb.backends.length →
        healthyAtIdx mb.backends
          (((mb.current + j) % U64) % mb.backends.length) = false) ∧
      GetNext mb
        = ({ mb with current := (mb.current + mb.backends.length) % U64 },
          some 0)) := by
  have hne : ¬ (mb.backends.length = 0) := by omega
  rcases getNextLoop_spec mb.backends mb.backends.length mb.current hc with
    ⟨k, h1, h2, h3, h4, heq⟩ | ⟨hall, heq⟩
  · left
    exact ⟨k, h1, h2, h3, h4, by simp [GetNext, hne, heq]⟩
  · right
    exact ⟨hall, by simp [GetNext, hne, heq]⟩

/-- C1 counterexample: with two unhealthy backends and the cursor at 1, the
pre-advance cursor position is index 1, yet `GetNext` returns index 0, and
the cursor advances by 2 rather than by exactly one. -/
theorem C1_counterexample :
    (GetNext mbC1).2 = some 0 ∧
    mbC1.current % mbC1.backends.length = 1 ∧
    (0 : Nat) ≠ 1 ∧
    (GetNext mbC1).1.current = mbC1.current + 2 := by
  refine ⟨?_, by decide, by decide, ?_⟩
  · rfl
  · rfl

/-- Witness for the amended C1 at a concrete one-backend healthy pool. -/
theorem C1_witness :
    (∃ k, 1 ≤ k ∧ k ≤ mbC1w.backends.length ∧
      healthyAtIdx mbC1w.backends
        (((mbC1w.current + k) % U64) % mbC1w.backends.length) = true ∧
      (∀ j, 1 ≤ j → j < k →
        healthyAtIdx mbC1w.backends
          (((mbC1w.current + j) % U64) % mbC1w.backends.length) = false) ∧
      GetNext mbC1w = ({ mbC1w with current := (mbC1w.current + k) % U64 },
        some (((mbC1w.current + k) % U64) % mbC1w.backends.length)))
    ∨ ((∀ j, 1 ≤ j → j ≤ mbC1w.backends.length →
        healthyAtIdx mbC1w.backends
          (((mbC1w.current + j) % U64) % mbC1w.backends.length) = false) ∧
      GetNext mbC1w
        = ({ mbC1w with current := (mbC1w.current + mbC1w.backends.length) % U64 },
          some 0)) :=
  C1_getNext_amended mbC1w (by decide) (by norm_num [mbC1w, U64])

/-- C5: for a configured model with a non-empty pool, `GetAllBackends`
returns the whole pool as an ordered sequence of length equal to the pool
size, starting at the current cursor position and wrapping around, without
advancing the cursor and without filtering by health: every pool index
appears in the sequence. -/
theorem C5_getAllBackends (mb : ModelBalancer) (hn : 0 < mb.backends.length) :
    (GetAllBackends mb).1 = mb ∧
    (GetAllBackends mb).2.length = mb.backends.length ∧
    (∀ i, i < mb.backends.length →
      (GetAllBackends mb).2.get? i
        = some ((mb.current % mb.backends.length + i) % mb.backends.length)) ∧
    (∀ j, j ∈ (GetAllBackends mb).2 ↔ j < mb.backends.length) := by
  have hne : ¬ (mb.backends.length = 0) := by omega
  have hga : GetAllBackends mb
      = (mb, (List.range mb.backends.length).map
          (fun i => (mb.current % mb.backends.length + i) % mb.backends.length)) := by
    simp [GetAllBackends, hne]
  rw [hga]
  refine ⟨rfl, by simp, ?_, ?_⟩
  · intro i hi
    rw [List.get?_map, List.get?_range hi]
    rfl
  · intro j
    constructor
    · intro hj
      rcases List.mem_map.mp hj with ⟨i, _, hij⟩
      rw [← hij]
      exact Nat.mod_lt _ hn
    · intro hj
      have hs : mb.current % mb.backends.length < mb.backends.length :=
        Nat.mod_lt _ hn
      refine List.mem_map.mpr
        ⟨(j + mb.backends.length - mb.current % mb.backends.length)
            % mb.backends.length,
          List.mem_range.mpr (Nat.mod_lt _ hn), ?_⟩
      have hsum : mb.current % mb.backends.length
          + (j + mb.backends.length - mb.current % mb.backends.length)
          = j + mb.backends.length := by omega
      calc (mb.current % mb.backends.length
              + (j + mb.backends.length - mb.current % mb.backends.length)
                  % mb.backends.length) % mb.backends.length
          = (mb.current % mb.backends.length
              + (j + mb.backends.length - mb.current % mb.backends.length))
                % mb.backends.length := Nat.add_mod_mod _ _ _
        _ = (j + mb.backends.length) % mb.backends.length := by rw [hsum]
        _ = j % mb.backends.length := Nat.add_mod_right _ _
        _ = j := Nat.mod_eq_of_lt hj

/-- Witness for C5 at a concrete two-backend pool with cursor 5. -/
theorem C5_witness :
    ((GetAllBackends ⟨[⟨⟨"a", "x", "da", "va"⟩, true, 0, 0⟩,
        ⟨⟨"b", "y", "db", "vb"⟩, false, 0, 0⟩], 5⟩).1
      = ⟨[⟨⟨"a", "x", "da", "va"⟩, true, 0, 0⟩,
        ⟨⟨"b", "y", "db", "vb"⟩, false, 0, 0⟩], 5⟩) ∧
    (GetAllBackends ⟨[⟨⟨"a", "x", "da", "va"⟩, true, 0, 0⟩,
        ⟨⟨"b", "y", "db", "vb"⟩, false, 0, 0⟩], 5⟩).2.length = 2 ∧
    (∀ i, i < 2 →
      (GetAllBackends ⟨[⟨⟨"a", "x", "da", "va"⟩, true, 0, 0⟩,
          ⟨⟨"b", "y", "db", "vb"⟩, false, 0, 0⟩], 5⟩).2.get? i
        = some ((5 % 2 + i) % 2)) ∧
    (∀ j, j ∈ (GetAllBackends ⟨[⟨⟨"a", "x", "da", "va"⟩, true, 0, 0⟩,
        ⟨⟨"b", "y", "db", "vb"⟩, false, 0, 0⟩], 5⟩).2 ↔ j < 2) :=
  C5_getAllBackends
    ⟨[⟨⟨"a", "x", "da", "va"⟩, true, 0, 0⟩,
      ⟨⟨"b", "y", "db", "vb"⟩, false, 0, 0⟩], 5⟩ (by decide)

/-- C7: the recovery sweep maps `sweepBS` over the pool; `sweepBS` resets
`healthy` to true exactly for backends that are unhealthy and whose time
since `lastChecked` exceeds the 30-second window, and leaves `failCount`,
`lastChecked` and the backend descriptor unchanged; `failCount` is reset to
zero only by `MarkHealthy`, while `MarkUnhealthy` increments it. -/
theorem C7_recovery_sweep (now : Nat) (mb : ModelBalancer) :
    (healthCheckSweep now mb).backends = mb.backends.map (sweepBS now) ∧
    (∀ bs : BackendStatus,
      (sweepBS now bs).healthy
        = (bs.healthy || decide (defaultRecoveryTimeout < now - bs.lastChecked)) ∧
      (sweepBS now bs).failCount = bs.failCount ∧
      (sweepBS now bs).lastChecked = bs.lastChecked ∧
      (sweepBS now bs).backend = bs.backend) ∧
    (∀ t bs, (markHealthyBS t bs).failCount = 0) ∧
    (∀ t bs, (markUnhealthyBS t bs).failCount = bs.failCount + 1) := by
  refine ⟨rfl, ?_, fun t bs => rfl, fun t bs => rfl⟩
  intro bs
  unfold sweepBS
  by_cases hcond :
      (!bs.healthy && decide (defaultRecoveryTimeout < now - bs.lastChecked)) = true
  · rw [if_pos hcond]
    simp only [Bool.and_eq_true] at hcond
    obtain ⟨hb, hd⟩ := hcond
    have hb2 : bs.healthy = false := by simpa using hb
    exact ⟨by simp [hb2, hd], rfl, rfl, rfl⟩
  · rw [if_neg hcond]
    refine ⟨?_, rfl, rfl, rfl⟩
    cases hh : bs.healthy with
    | true => simp
    | false =>
      cases hd : decide (defaultRecoveryTimeout < now - bs.lastChecked) with
      | false => simp [hd]
      | true => exact absurd (by simp [hh, hd]) hcond

/-! ### Dispatcher lemmas and claims -/

theorem getAllBackends_length (mb : ModelBalancer) :
    (GetAllBackends mb).2.length = mb.backends.length := by
  by_cases h : mb.backends.length = 0
  · simp [GetAllBackends, h]
  · simp [GetAllBackends, h]

theorem modifyAt_get?_self {A : Type} (f : A → A) :
    ∀ (l : List A) (i : Nat), i < l.length →
      (modifyAt f l i).get? i = (l.get? i).map f := by
  intro l
  induction l with
  | nil =>
    intro i h
    simp at h
  | cons x xs ih =>
    intro i h
    cases i with
    | zero => simp [modifyAt]
    | succ n =>
      simp only [modifyAt, List.get?_cons_succ]
      exact ih n (by simpa using h)

theorem dispatchLoop_trace_le (c : Nat → Bool) (o : Nat → AttemptOutcome)
    (b : List Nat) (now : Nat) :
    ∀ r i le pool, (dispatchLoop c o b now r i le pool).2.2.length ≤ r := by
  intro r
  induction r with
  | zero =>
    intro i le pool
    simp [dispatchLoop]
  | succ r ih =>
    intro i le pool
    cases hc : c i with
    | true => simp [dispatchLoop, hc]
    | false =>
      cases ho : o i with
      | buildErr msg =>
        simp only [dispatchLoop, hc, Bool.false_eq_true, if_false, ho,
          List.length_cons]
        exact Nat.succ_le_succ (ih (i + 1) (some msg) pool)
      | doErr cc msg =>
        simp only [dispatchLoop, hc, Bool.false_eq_true, if_false, ho,
          List.length_cons]
        exact Nat.succ_le_succ (ih (i + 1) (some msg) _)
      | resp s =>
        by_cases hs : 500 ≤ s
        · simp only [dispatchLoop, hc, Bool.false_eq_true, if_false, ho,
            if_pos hs, List.length_cons]
          exact Nat.succ_le_succ (ih (i + 1) _ _)
        · simp only [dispatchLoop, hc, Bool.false_eq_true, if_false, ho,
            if_neg hs, List.length_cons]
          simp

theorem dispatchLoop_allFailed (c : Nat → Bool) (o : Nat → AttemptOutcome)
    (b : List Nat) (now : Nat) :
    ∀ r i le pool, 1 ≤ r →
      (∀ j, i ≤ j → j < i + r → c j = false ∧ isFail (o j) = true) →
      (dispatchLoop c o b now r i le pool).1
        = .allFailed (some (errDescr (o (i + r - 1)))) := by
  intro r
  induction r with
  | zero =>
    intro i le pool h
    omega
  | succ r ih =>
    intro i le pool _ hall
    have hci : c i = false := (hall i (le_refl i) (by omega)).1
    have hfi : isFail (o i) = true := (hall i (le_refl i) (by omega)).2
    by_cases hr : r = 0
    · subst hr
      cases ho : o i with
      | buildErr msg =>
        simp [dispatchLoop, hci, ho, errDescr]
      | doErr cc msg =>
        simp [dispatchLoop, hci, ho, errDescr]
      | resp s =>
        have hs : 500 ≤ s := by
          rw [ho] at hfi
          simpa [isFail] using hfi
        simp [dispatchLoop, hci, ho, hs, errDescr]
    · have hr1 : 1 ≤ r := by omega
      have hall2 : ∀ j, i + 1 ≤ j → j < (i + 1) + r →
          c j = false ∧ isFail (o j) = true := by
        intro j h1 h2
        exact hall j (by omega) (by omega)
      have hidx : (i + 1) + r - 1 = i + (r + 1) - 1 := by omega
      cases ho : o i with
      | buildErr msg =>
        have := ih (i + 1) (some msg) pool hr1 hall2
        rw [hidx] at this
        simpa [dispatchLoop, hci, ho] using this
      | doErr cc msg =>
        have := ih (i + 1) (some msg)
          (MarkUnhealthy pool ((b.get? (i % b.length)).getD 0) now) hr1 hall2
        rw [hidx] at this
        simpa [dispatchLoop, hci, ho] using this
      | resp s =>
        have hs : 500 ≤ s := by
          rw [ho] at hfi
          simpa [isFail] using hfi
        have := ih (i + 1) (some ("backend returned status " ++ toString s))
          (MarkUnhealthy pool ((b.get? (i % b.length)).getD 0) now) hr1 hall2
        rw [hidx] at this
        simpa [dispatchLoop, hci, ho, hs] using this

/-- C6: the number of backend attempts for one inbound request is bounded by
`min(configured max attempts, pool size)`, and when every attempt in that
budget fails (no cancellation), the dispatcher returns the
service-unavailable result carrying the description of the last failure. -/
theorem C6_attempt_bound (c : Nat → Bool) (o : Nat → AttemptOutcome)
    (cfg : Nat) (mb : ModelBalancer) (now : Nat) :
    (proxyWithModel c o cfg mb now).2.2.length ≤ min cfg mb.backends.length ∧
    (1 ≤ cfg → 1 ≤ mb.backends.length →
      (∀ j, j < min cfg mb.backends.length →
        c j = false ∧ isFail (o j) = true) →
      (proxyWithModel c o cfg mb now).1
        = .allFailed (some (errDescr (o (min cfg mb.backends.length - 1))))) := by
  have hlen := getAllBackends_length mb
  by_cases h0 : mb.backends.length = 0
  · constructor
    · simp [proxyWithModel, hlen, h0]
    · intro _ h2 _
      omega
  · have hmin : (if cfg > (GetAllBackends mb).2.length
        then (GetAllBackends mb).2.length else cfg)
        = min cfg mb.backends.length := by
      rw [hlen, Nat.min_def]
      split_ifs <;> omega
    have hmin2 : (if mb.backends.length < cfg then mb.backends.length else cfg)
        = min cfg mb.backends.length := by
      rw [Nat.min_def]
      split_ifs <;> omega
    have hproxy : proxyWithModel c o cfg mb now
        = dispatchLoop c o (GetAllBackends mb).2 now
            (min cfg mb.backends.length) 0 none mb.backends := by
      simp only [proxyWithModel, hlen, h0, if_false, gt_iff_lt]
      rw [hmin2]
    rw [hproxy]
    constructor
    · exact dispatchLoop_trace_le c o (GetAllBackends mb).2 now _ 0 none mb.backends
    · intro h1 h2 hall
      have hminpos : 1 ≤ min cfg mb.backends.length :=
        Nat.le_min.mpr ⟨h1, h2⟩
      have := dispatchLoop_allFailed c o (GetAllBackends mb).2 now
        (min cfg mb.backends.length) 0 none mb.backends hminpos
        (fun j _ hj => hall j (by omega))
      simpa using this

/-- Witness for C6: two backends, three configured attempts, every attempt
answering 500; at most two attempts run and the dispatcher reports the last
500 failure. -/
theorem C6_witness :
    (proxyWithModel (fun _ => false) (fun _ => AttemptOutcome.resp 500)
      3 mbC6 0).2.2.length ≤ min 3 mbC6.backends.length ∧
    (proxyWithModel (fun _ => false) (fun _ => AttemptOutcome.resp 500)
        3 mbC6 0).1
      = DispatchResult.allFailed (some (errDescr (AttemptOutcome.resp 500))) := by
  have h := C6_attempt_bound (fun _ => false) (fun _ => AttemptOutcome.resp 500)
    3 mbC6 0
  exact ⟨h.1, h.2 (by omega) (by decide) (fun j _ => ⟨rfl, by decide⟩)⟩

theorem succ_mod_ne (a n : Nat) (hn : 2 ≤ n) : (a + 1) % n ≠ a % n := by
  intro h
  have h1 : (a + 1) % n = (a % n + 1) % n := by
    conv_lhs => rw [Nat.add_mod]
    rw [Nat.mod_eq_of_lt (show 1 < n by omega)]
  have h2 : a % n < n := Nat.mod_lt _ (by omega)
  by_cases h3 : a % n + 1 < n
  · rw [h1, Nat.mod_eq_of_lt h3] at h
    omega
  · have h4 : a % n + 1 = n := by omega
    rw [h1, h4, Nat.mod_self] at h
    omega

theorem getAllBackends_get? (mb : ModelBalancer) (i : Nat)
    (hi : i < mb.backends.length) :
    (GetAllBackends mb).2.get? i
      = some ((mb.current % mb.backends.length + i) % mb.backends.length) := by
  have hne : ¬ (mb.backends.length = 0) := by omega
  simp only [GetAllBackends, hne, if_false]
  rw [List.get?_map, List.get?_range hi]
  rfl

/-- C4: in the dispatch retry loop, with the caller not cancelled at the
check, a backend response with status >= 500 marks that backend unhealthy and
the loop continues with the next attempt, while a response with status < 500
marks the backend healthy, relays it, and ends the loop; and consecutive
attempt positions of the failover sequence refer to different backends
whenever the pool has more than one backend. -/
theorem C4_retry_behavior (c : Nat → Bool) (o : Nat → AttemptOutcome)
    (backends : List Nat) (mb : ModelBalancer) (now r i : Nat)
    (le : Option String) (pool : List BackendStatus) (s : Nat)
    (hc : c i = false) (ho : o i = .resp s) :
    (500 ≤ s →
      dispatchLoop c o backends now (r + 1) i le pool
        = ((dispatchLoop c o backends now r (i + 1)
              (some ("backend returned status " ++ toString s))
              (MarkUnhealthy pool ((backends.get? (i % backends.length)).getD 0)
                now)).1,
          (dispatchLoop c o backends now r (i + 1)
              (some ("backend returned status " ++ toString s))
              (MarkUnhealthy pool ((backends.get? (i % backends.length)).getD 0)
                now)).2.1,
          ((backends.get? (i % backends.length)).getD 0, AttemptOutcome.resp s)
            :: (dispatchLoop c o backends now r (i + 1)
                (some ("backend returned status " ++ toString s))
                (MarkUnhealthy pool
                  ((backends.get? (i % backends.length)).getD 0) now)).2.2)) ∧
    (s < 500 →
      dispatchLoop c o backends now (r + 1) i le pool
        = (.relayed ((backends.get? (i % backends.length)).getD 0) s,
          MarkHealthy pool ((backends.get? (i % backends.length)).getD 0) now,
          [((backends.get? (i % backends.length)).getD 0,
            AttemptOutcome.resp s)])) ∧
    (∀ idx, idx < pool.length →
      ((MarkUnhealthy pool idx now).get? idx).map (fun b => b.healthy)
        = some false) ∧
    (∀ idx, idx < pool.length →
      ((MarkHealthy pool idx now).get? idx).map (fun b => b.healthy)
        = some true) ∧
    (∀ j, j + 1 < (GetAllBackends mb).2.length →
      ((GetAllBackends mb).2.get? ((j + 1) % (GetAllBackends mb).2.length)).getD 0
        ≠ ((GetAllBackends mb).2.get? (j % (GetAllBackends mb).2.length)).getD 0) := by
  refine ⟨?_, ?_, ?_, ?_, ?_⟩
  · intro hs
    simp [dispatchLoop, hc, ho, hs]
  · intro hs
    have hns : ¬ (500 ≤ s) := by omega
    simp [dispatchLoop, hc, ho, hns]
  · intro idx hidx
    rw [MarkUnhealthy, modifyAt_get?_self _ _ _ hidx]
    rcases List.get?_eq_get hidx with hg
    rw [hg]
    simp [markUnhealthyBS]
  · intro idx hidx
    rw [MarkHealthy, modifyAt_get?_self _ _ _ hidx]
    rcases List.get?_eq_get hidx with hg
    rw [hg]
    simp [markHealthyBS]
  · intro j hj
    rw [getAllBackends_length] at hj
    have hn2 : 2 ≤ mb.backends.length := by omega
    have hj1 : j < mb.backends.length := by omega
    have hmod1 : (j + 1) % (GetAllBackends mb).2.length = j + 1 := by
      rw [getAllBackends_length]
      exact Nat.mod_eq_of_lt hj
    have hmod2 : j % (GetAllBackends mb).2.length = j := by
      rw [getAllBackends_length]
      exact Nat.mod_eq_of_lt (by omega)
    rw [hmod1, hmod2, getAllBackends_get? mb (j + 1) hj,
      getAllBackends_get? mb j hj1]
    simp only [Option.getD_some]
    have := succ_mod_ne (mb.current % mb.backends.length + j)
      mb.backends.length hn2
    intro heq
    apply this
    calc (mb.current % mb.backends.length + j + 1) % mb.backends.length
        = (mb.current % mb.backends.length + (j + 1)) % mb.backends.length := by
          ring_nf
      _ = (mb.current % mb.backends.length + j) % mb.backends.length := heq

/-- Witness for C4: a 200 response at attempt 0 relays it, marks backend 0
healthy and ends the loop; and the attempt after position 0 of the failover
sequence names a different backend. -/
theorem C4_witness :
    (dispatchLoop (fun _ => false) (fun _ => AttemptOutcome.resp 200)
        [0, 1] 7 2 0 none mbC4.backends
      = (.relayed 0 200, MarkHealthy mbC4.backends 0 7,
          [(0, AttemptOutcome.resp 200)])) ∧
    ((GetAllBackends mbC4).2.get? ((0 + 1) % (GetAllBackends mbC4).2.length)).getD 0
      ≠ ((GetAllBackends mbC4).2.get? (0 % (GetAllBackends mbC4).2.length)).getD 0 := by
  have h := C4_retry_behavior (fun _ => false) (fun _ => AttemptOutcome.resp 200)
    [0, 1] mbC4 7 1 0 none mbC4.backends 200 rfl rfl
  refine ⟨?_, h.2.2.2.2 0 (by decide)⟩
  have h2 := h.2.1 (by omega)
  simpa using h2

/-- C3 (amended): when the cancellation signal is observed at the check at
the top of a retry-loop iteration, the loop aborts silently: no 503 is
produced and the pool's health state is returned untouched.  (A cancellation
that instead interrupts the in-flight outbound call surfaces as a
`client.Do` error, which the loop cannot distinguish from a backend
transport fault and which therefore marks the backend unhealthy; see the
counterexample.) -/
theorem C3_cancellation_amended (c : Nat → Bool) (o : Nat → AttemptOutcome)
    (backends : List Nat) (now r i : Nat) (le : Option String)
    (pool : List BackendStatus) (h : c i = true) :
    dispatchLoop c o backends now (r + 1) i le pool = (.cancelled, pool, []) := by
  simp [dispatchLoop, h]

/-- Witness for the amended C3: cancellation observed at the first check
returns silently with the pool unchanged. -/
theorem C3_witness :
    dispatchLoop (fun _ => true) (fun _ => AttemptOutcome.resp 200)
        [0] 0 1 0 none [⟨⟨"e", "k", "d", "v"⟩, true, 0, 0⟩]
      = (.cancelled, [⟨⟨"e", "k", "d", "v"⟩, true, 0, 0⟩], []) :=
  C3_cancellation_amended (fun _ => true) (fun _ => AttemptOutcome.resp 200)
    [0] 0 0 0 none [⟨⟨"e", "k", "d", "v"⟩, true, 0, 0⟩] rfl

/-- C3 counterexample: the caller's cancellation interrupts the outbound
call (`client.Do` returns the context error, modelled by
`doErr (dueToCancel := true)`); the loop treats it as a transport failure
and mutates the backend's health state: the previously healthy backend ends
marked unhealthy with its fail count incremented. -/
theorem C3_counterexample :
    bsC3.healthy = true ∧
    (proxyWithModel (fun _ => false)
        (fun _ => AttemptOutcome.doErr true "context canceled")
        1 ⟨[bsC3], 0⟩ 7).2.1
      = [⟨⟨"e", "k", "d", "v"⟩, false, 7, 1⟩] :=
  ⟨rfl, rfl⟩

/-- C2 (amended): `Init` accepts a model configured with zero backends — it
registers the model with an empty pool rather than failing — and the empty
pool is surfaced per request: the dispatcher, finding an empty failover
sequence, answers with the service-unavailable result (`no backends
available`) without contacting a backend or mutating any state. -/
theorem C2_emptyPool_amended (models : List (String × List Backend))
    (name : String) (c : Nat → Bool) (o : Nat → AttemptOutcome)
    (cfg now : Nat) (mb : ModelBalancer) (hmb : mb.backends = []) :
    alookup (Init models) name
      = (alookup models name).map
          (fun bks => { backends := bks.map initBS, current := 0 }) ∧
    proxyWithModel c o cfg mb now = (.noBackends, mb.backends, []) := by
  constructor
  · induction models with
    | nil => rfl
    | cons e ms ih =>
      by_cases he : e.1 = name
      · simp [Init, alookup, he]
      · simpa [Init, alookup, he] using ih
  · have h0 : mb.backends.length = 0 := by
      rw [hmb]
      rfl
    simp [proxyWithModel, GetAllBackends, h0]

/-- Witness for the amended C2 at a concrete configuration and an empty
pool. -/
theorem C2_witness :
    alookup (Init [("gpt-4", [⟨"e", "k", "d", "v"⟩])]) "gpt-4"
      = (alookup [("gpt-4", [⟨"e", "k", "d", "v"⟩])] "gpt-4").map
          (fun bks => { backends := bks.map initBS, current := 0 }) ∧
    proxyWithModel (fun _ => false) (fun _ => AttemptOutcome.resp 200)
        3 ⟨[], 5⟩ 0
      = (.noBackends, ([] : List BackendStatus), []) :=
  C2_emptyPool_amended [("gpt-4", [⟨"e", "k", "d", "v"⟩])] "gpt-4"
    (fun _ => false) (fun _ => AttemptOutcome.resp 200) 3 0 ⟨[], 5⟩ rfl

/-- C2 counterexample: a model configured with zero backends is not rejected
at initialization — `Init` (which has no error return at all) registers it
with an empty pool — and the condition is surfaced as a per-request
service-unavailable response by the dispatcher. -/
theorem C2_counterexample :
    alookup (Init [("m", [])]) "m" = some ⟨[], 0⟩ ∧
    proxyWithModel (fun _ => false) (fun _ => AttemptOutcome.resp 200)
        3 ⟨[], 0⟩ 0
      = (.noBackends, [], []) := by
  constructor
  · simp [Init, alookup]
  · rfl

end AzureProxy
